import Mathlib

/-! # `vault status`: status derivation, presentation and exit code

A shallow embedding of `command/status.go` (`StatusCommand.Run`, `Synopsis`,
`Help`) together with the small part of Go's `fmt.Sprintf` and
`strings.TrimSpace` that the file relies on.

Collaborators that live outside `command/status.go` (the flag set, the API
client, the Ui) are parameters of the embedding: a run receives the results
its collaborators would give and records, in order, every call it makes.
-/

namespace Vault

/-! ## Go library fragments used by the command -/

/-- An operand handed to `fmt.Sprintf`. An `error` operand is represented by
the text its `Error()` method returns. -/
inductive Operand where
  | bool (b : Bool)
  | int (i : Int)
  | str (s : String)
  | err (text : String)
  deriving DecidableEq, Repr

/-- Go's rendering of a `bool` under `%v`: `true` or `false`. -/
def fmtBool (b : Bool) : List Char :=
  if b then ['t', 'r', 'u', 'e'] else ['f', 'a', 'l', 's', 'e']

/-- Go's rendering of an `int` under `%d`: base ten, a leading `-` for a
negative number, no padding. -/
def fmtInt : Int → List Char
  | Int.ofNat n => Nat.toDigits 10 n
  | Int.negSucc n => '-' :: Nat.toDigits 10 (n + 1)

/-- The type name `fmt` prints in a diagnostic for an operand. -/
def Operand.typeName : Operand → List Char
  | .bool _ => "bool".toList
  | .int _ => "int".toList
  | .str _ => "string".toList
  | .err _ => "error".toList

/-- The default (`%v`) rendering of an operand. -/
def Operand.render : Operand → List Char
  | .bool b => fmtBool b
  | .int i => fmtInt i
  | .str s => s.toList
  | .err text => text.toList

/-- One verb applied to one operand. The verbs of `command/status.go` are
`%v`, `%d` and `%s`, without flags or width. `%v` prints the default form of
any operand, `%d` an integer in base ten, `%s` a string verbatim and an
`error` through its `Error()` text. Any other pairing prints Go's diagnostic
`%!verb(type=value)`; no format string of `command/status.go` reaches it. -/
def formatOperand (verb : Char) (a : Operand) : List Char :=
  if verb = 'v' then a.render
  else if verb = 'd' then
    match a with
    | .int i => fmtInt i
    | _ => '%' :: '!' :: verb :: '(' :: (a.typeName ++ '=' :: (a.render ++ [')']))
  else if verb = 's' then
    match a with
    | .str s => s.toList
    | .err text => text.toList
    | _ => '%' :: '!' :: verb :: '(' :: (a.typeName ++ '=' :: (a.render ++ [')']))
  else '%' :: '!' :: verb :: '(' :: (a.typeName ++ '=' :: (a.render ++ [')']))

/-- The comma-separated `type=value` list inside an `EXTRA` diagnostic. -/
def extraList : List Operand → List Char
  | [] => []
  | [a] => a.typeName ++ '=' :: a.render
  | a :: b :: rest => a.typeName ++ '=' :: (a.render ++ ',' :: ' ' :: extraList (b :: rest))

/-- Operands left over when the format string is exhausted: nothing when
there are none, otherwise Go's `%!(EXTRA type=value, ...)`. -/
def extraOperands : List Operand → List Char
  | [] => []
  | a :: rest => "%!(EXTRA ".toList ++ (extraList (a :: rest) ++ [')'])

/-- The interpreter behind `fmt.Sprintf`: literal characters are copied,
`%%` prints a percent sign, `%verb` consumes the next operand (printing
`%!verb(MISSING)` when none is left), a lone `%` at the end prints
`%!(NOVERB)`, and operands never consumed are listed at the end. -/
def sprintfChars : List Char → List Operand → List Char
  | [], args => extraOperands args
  | c :: rest, args =>
    if c = '%' then
      match rest, args with
      | [], _ => "%!(NOVERB)".toList ++ extraOperands args
      | verb :: rest', [] =>
        if verb = '%' then '%' :: sprintfChars rest' []
        else '%' :: '!' :: verb :: ("(MISSING)".toList ++ sprintfChars rest' [])
      | verb :: rest', a :: args' =>
        if verb = '%' then '%' :: sprintfChars rest' (a :: args')
        else formatOperand verb a ++ sprintfChars rest' args'
    else c :: sprintfChars rest args

/-- Model of `fmt.Sprintf(format, args...)`. -/
def Sprintf (format : String) (args : List Operand) : String :=
  String.mk (sprintfChars format.toList args)

/-- Go's `unicode.IsSpace`: the characters with the Unicode White_Space
property. -/
def isSpace (c : Char) : Bool :=
  let n := c.toNat
  (9 ≤ n && n ≤ 13) || n = 32 || n = 0x85 || n = 0xA0 || n = 0x1680 ||
    (0x2000 ≤ n && n ≤ 0x200A) || n = 0x2028 || n = 0x2029 || n = 0x202F ||
    n = 0x205F || n = 0x3000

/-- Model of `strings.TrimSpace`: leading and trailing white space removed. -/
def TrimSpace (s : String) : String :=
  String.mk ((s.toList.dropWhile isSpace).reverse.dropWhile isSpace).reverse

/-! ## Data model -/

/-- Modelled from the spec: the record `SealStatus()` returns
(`api.SealStatusResponse`), whose declaration is outside `command/status.go`.
`Sealed` is printed with `%v` and tested as a condition; `N` (key shares), `T`
(key threshold) and `Progress` (unseal progress) are Go `int`s printed with
`%d`. The command does no arithmetic on them, so they are embedded as
integers without a bound, and no relation between them is enforced. -/
structure SealStatusResponse where
  Sealed : Bool
  N : Int
  T : Int
  Progress : Int
  deriving DecidableEq, Repr

/-- Modelled from the spec: the record `Leader()` returns
(`api.LeaderResponse`), whose declaration is outside `command/status.go`. -/
structure LeaderResponse where
  HAEnabled : Bool
  IsSelf : Bool
  LeaderAddress : String
  deriving DecidableEq, Repr

/-- The API client as `Run` sees it through `client.Sys()`: what each of the
two queries returns when it is made, the error branch holding the text of a
non-nil `err`. -/
structure Client where
  SealStatus : Except String SealStatusResponse
  Leader : Except String LeaderResponse

/-- Result of `flags.Parse(args)` on the flag set built by `c.Meta.FlagSet`:
a nil error, or a non-nil error. While it fails the flag set may call the
`Usage` closure installed by `Run` (`c.Ui.Error(c.Help())`) and report the
error itself; `ui` lists the messages that reached `Ui.Error` that way. -/
inductive ParseResult where
  | ok
  | failed (ui : List String)
  deriving DecidableEq, Repr

/-- The embedded `Meta` of the command, as far as `Run` uses it: the flag
set's `Parse` and the `Client()` constructor. -/
structure Meta where
  Parse : List String → ParseResult
  Client : Except String Client

/-- `StatusCommand` is a command that outputs the status of whether Vault is
sealed or not as well as HA information. -/
structure StatusCommand where
  Meta : Meta

/-- One externally visible step of a run, in the order the steps happen. -/
inductive Event where
  | flagsParse (args : List String)
  | newClient
  | sealStatusQuery
  | leaderQuery
  | uiOutput (msg : String)
  | uiError (msg : String)
  deriving DecidableEq, Repr

/-- What a run yields: the exit code returned by `Run` and the steps made. -/
structure RunResult where
  code : Int
  trace : List Event
  deriving DecidableEq, Repr

/-! ## The command -/

/-- The value `Run` computes for `isLeader` and `leaderAddress` (lines 42-52
of `command/status.go`). -/
def leaderFields (sealStatus : SealStatusResponse) (leaderStatus : LeaderResponse) :
    String × String :=
  if sealStatus.Sealed then
    ("unknown while sealed", "unknown while sealed")
  else if !leaderStatus.HAEnabled then
    ("n/a", "n/a")
  else
    (Sprintf "%v" [.bool leaderStatus.IsSelf], leaderStatus.LeaderAddress)

/-- The message `Run` passes to `c.Ui.Output` (lines 54-69). -/
def statusMessage (sealStatus : SealStatusResponse) (leaderStatus : LeaderResponse)
    (isLeader leaderAddress : String) : String :=
  Sprintf
    ("Sealed: %v\n" ++
      "\tKey Shares: %d\n" ++
      "\tKey Threshold: %d\n" ++
      "\tUnseal Progress: %d\n" ++
      "HA Enabled: %v\n" ++
      "\tIs Leader: %s\n" ++
      "\tLeader Address: %s")
    [.bool sealStatus.Sealed,
     .int sealStatus.N,
     .int sealStatus.T,
     .int sealStatus.Progress,
     .bool leaderStatus.HAEnabled,
     .str isLeader,
     .str leaderAddress]

/-- `StatusCommand.Run`: parse the flags (return 1 on error), create the
client, query the seal status, query the leader status (each: report through
`Ui.Error` and return 2 on error), derive the leader fields, print the status
through `Ui.Output`, and return 1 when sealed, 0 otherwise. -/
def StatusCommand.Run (c : StatusCommand) (args : List String) : RunResult :=
  match c.Meta.Parse args with
  | .failed ui =>
    { code := 1, trace := .flagsParse args :: ui.map .uiError }
  | .ok =>
    match c.Meta.Client with
    | .error err =>
      { code := 2
        trace := [.flagsParse args, .newClient,
          .uiError (Sprintf "Error initializing client: %s" [.err err])] }
    | .ok client =>
      match client.SealStatus with
      | .error err =>
        { code := 2
          trace := [.flagsParse args, .newClient, .sealStatusQuery,
            .uiError (Sprintf "Error checking seal status: %s" [.err err])] }
      | .ok sealStatus =>
        match client.Leader with
        | .error err =>
          { code := 2
            trace := [.flagsParse args, .newClient, .sealStatusQuery, .leaderQuery,
              .uiError (Sprintf "Error checking leader status: %s" [.err err])] }
        | .ok leaderStatus =>
          let (isLeader, leaderAddress) := leaderFields sealStatus leaderStatus
          { code := if sealStatus.Sealed then 1 else 0
            trace := [.flagsParse args, .newClient, .sealStatusQuery, .leaderQuery,
              .uiOutput (statusMessage sealStatus leaderStatus isLeader leaderAddress)] }

/-- `StatusCommand.Synopsis`. -/
def StatusCommand.Synopsis (_c : StatusCommand) : String :=
  "Outputs status of whether Vault is sealed and if HA mode is enabled"

/-- The raw string literal `helpText` of `StatusCommand.Help`. -/
def helpText : String :=
"
Usage: vault status [options]

  Outputs the state of the Vault, sealed or unsealed and if HA is enabled.

  This command outputs whether or not the Vault is sealed. The exit
  code also reflects the seal status (0 unsealed, 1 sealed, 2+ error).

General Options:

  -address=TODO           The address of the Vault server.

  -ca-cert=path           Path to a PEM encoded CA cert file to use to
                          verify the Vault server SSL certificate.

  -ca-path=path           Path to a directory of PEM encoded CA cert files
                          to verify the Vault server SSL certificate. If both
                          -ca-cert and -ca-path are specified, -ca-path is used.

  -insecure               Do not verify TLS certificate. This is highly
                          not recommended. This is especially not recommended
                          for unsealing a vault.

"

/-- `StatusCommand.Help`. -/
def StatusCommand.Help (_c : StatusCommand) : String :=
  TrimSpace helpText

/-- The messages a run passed to `Ui.Output`, in order. -/
def uiOutputs : List Event → List String
  | [] => []
  | .uiOutput msg :: rest => msg :: uiOutputs rest
  | _ :: rest => uiOutputs rest

/-- The messages a run passed to `Ui.Error`, in order. -/
def uiErrors : List Event → List String
  | [] => []
  | .uiError msg :: rest => msg :: uiErrors rest
  | _ :: rest => uiErrors rest

/-! ## Reference renderings used to state the properties -/

/-- The seven labelled lines of the status report, in their fixed order, for
given field values. -/
def statusLines (isSealed : Bool) (shareCount shareThreshold unsealProgress : Int)
    (haEnabled : Bool) (isLeader leaderAddress : String) : List String :=
  ["Sealed: " ++ toString isSealed,
   "\tKey Shares: " ++ toString shareCount,
   "\tKey Threshold: " ++ toString shareThreshold,
   "\tUnseal Progress: " ++ toString unsealProgress,
   "HA Enabled: " ++ toString haEnabled,
   "\tIs Leader: " ++ isLeader,
   "\tLeader Address: " ++ leaderAddress]

/-- The lines of a text: the pieces between its newline characters, as
`strings.Split(text, "\n")` gives them. A text that ends in a newline has an
empty last line. -/
def linesOf : List Char → List (List Char)
  | [] => [[]]
  | c :: rest =>
    if c = '\n' then [] :: linesOf rest
    else
      match linesOf rest with
      | [] => [[c]]
      | line :: more => (c :: line) :: more

/-- The lines of a text, as strings. -/
def textLines (text : String) : List String :=
  (linesOf text.toList).map String.mk

/-- All three collaborator calls of `Run` (client creation, seal-status
query, leader-status query) return without error. -/
def StatusCommand.allSucceed (c : StatusCommand) : Bool :=
  match c.Meta.Client with
  | .error _ => false
  | .ok client =>
    match client.SealStatus, client.Leader with
    | .ok _, .ok _ => true
    | _, _ => false

/-- One of the three collaborator calls of `Run` returns an error: client
creation, or else the seal-status query, or else the leader-status query. -/
def StatusCommand.someFails (c : StatusCommand) : Bool :=
  match c.Meta.Client with
  | .error _ => true
  | .ok client =>
    match client.SealStatus with
    | .error _ => true
    | .ok _ =>
      match client.Leader with
      | .error _ => true
      | .ok _ => false

/-- A command whose collaborators give fixed results and whose flag set
accepts every argument list. -/
def fixedCommand (client : Except String Client) : StatusCommand :=
  { Meta := { Parse := fun _ => .ok, Client := client } }

/-- A sealed node: three of five shares required, one supplied; the leader
query answers with HA data all the same. -/
def sealedNode : StatusCommand :=
  fixedCommand (.ok { SealStatus := .ok ⟨true, 5, 3, 1⟩
                      Leader := .ok ⟨true, true, "https://10.0.0.7:8200"⟩ })

/-- The same sealed node answered by a different leader record. -/
def sealedNodeOtherLeader : StatusCommand :=
  fixedCommand (.ok { SealStatus := .ok ⟨true, 5, 3, 1⟩
                      Leader := .ok ⟨true, false, "https://203.0.113.9:8200"⟩ })

/-- An unsealed node outside HA mode. -/
def standaloneNode : StatusCommand :=
  fixedCommand (.ok { SealStatus := .ok ⟨false, 5, 3, 0⟩
                      Leader := .ok ⟨false, false, ""⟩ })

/-- An unsealed HA node that is the leader. -/
def leaderNode : StatusCommand :=
  fixedCommand (.ok { SealStatus := .ok ⟨false, 5, 3, 0⟩
                      Leader := .ok ⟨true, true, "https://10.0.0.7:8200"⟩ })

/-- An unsealed HA standby whose leader address is longer than the leader's
own and whose progress counter exceeds the threshold. -/
def standbyNode : StatusCommand :=
  fixedCommand (.ok { SealStatus := .ok ⟨false, 5, 3, 4⟩
                      Leader := .ok ⟨true, false, "https://10.0.0.8:8200"⟩ })

/-- An unsealed HA standby that knows of no leader yet: the leader address
is the empty string. -/
def leaderlessNode : StatusCommand :=
  fixedCommand (.ok { SealStatus := .ok ⟨false, 5, 3, 0⟩
                      Leader := .ok ⟨true, false, ""⟩ })

/-- An unsealed HA node whose leader query answers with an address that
holds newline characters and ends in one. -/
def multilineAddressNode : StatusCommand :=
  fixedCommand (.ok { SealStatus := .ok ⟨false, 5, 3, 0⟩
                      Leader := .ok ⟨true, false, "x\n\tSealed: true\n"⟩ })

/-- A command whose client cannot be created. -/
def noClient : StatusCommand :=
  fixedCommand (.error "invalid address")

/-- A command whose seal-status query fails although its leader query would
answer. -/
def sealQueryDown : StatusCommand :=
  fixedCommand (.ok { SealStatus := .error "connection refused"
                      Leader := .ok ⟨true, true, "https://10.0.0.7:8200"⟩ })

/-- A command whose leader query fails after a sealed seal status. -/
def leaderQueryDown : StatusCommand :=
  fixedCommand (.ok { SealStatus := .ok ⟨true, 5, 3, 1⟩
                      Leader := .error "connection refused" })

/-- A command whose flag set rejects every non-empty argument list, as Go's
`flag` package does for a flag that was never defined, in front of an
unsealed node. -/
def strictFlags : StatusCommand :=
  { Meta := { Parse := fun args =>
                match args with
                | [] => .ok
                | _ :: _ => .failed ["flag provided but not defined"]
              Client := .ok { SealStatus := .ok ⟨false, 5, 3, 0⟩
                              Leader := .ok ⟨false, false, ""⟩ } } }

/-! ## Properties of the library fragments -/

/-- The interpreter on sample calls, diagnostics included. -/
theorem Sprintf_samples :
    Sprintf "Sealed: %v\n\tKey Shares: %d" [.bool true, .int 5]
      = "Sealed: true\n\tKey Shares: 5" ∧
    Sprintf "%d of %d: %s" [.int (-12), .int 0, .err "boom"] = "-12 of 0: boom" ∧
    Sprintf "100%% %v" [.str "sure"] = "100% sure" ∧
    Sprintf "x %d" [.str "a"] = "x %!d(string=a)" ∧
    Sprintf "x %d" [] = "x %!d(MISSING)" ∧
    Sprintf "x" [.int 1, .bool false] = "x%!(EXTRA int=1, bool=false)" := by
  decide

/-- `%d` prints the same decimal text as `toString` on integers. -/
theorem mk_fmtInt (i : Int) : String.mk (fmtInt i) = toString i := by
  cases i <;> rfl

/-- `%v` prints the same text as `toString` on booleans. -/
theorem mk_fmtBool (b : Bool) : String.mk (fmtBool b) = toString b := by
  cases b <;> rfl

theorem toString_true : toString true = "true" := rfl

theorem toString_false : toString false = "false" := rfl

/-- `Sprintf("%v", b)` is `true` or `false`. -/
theorem Sprintf_v_bool (b : Bool) :
    Sprintf "%v" [.bool b] = if b then "true" else "false" := by
  cases b <;> rfl

/-- The three error messages are their prefix followed by the error text. -/
theorem Sprintf_client_error (e : String) :
    Sprintf "Error initializing client: %s" [.err e] = "Error initializing client: " ++ e := by
  unfold Sprintf
  apply String.ext
  simp [sprintfChars, formatOperand, Operand.render, extraOperands]

theorem Sprintf_seal_error (e : String) :
    Sprintf "Error checking seal status: %s" [.err e] = "Error checking seal status: " ++ e := by
  unfold Sprintf
  apply String.ext
  simp [sprintfChars, formatOperand, Operand.render, extraOperands]

theorem Sprintf_leader_error (e : String) :
    Sprintf "Error checking leader status: %s" [.err e]
      = "Error checking leader status: " ++ e := by
  unfold Sprintf
  apply String.ext
  simp [sprintfChars, formatOperand, Operand.render, extraOperands]

/-- The status template filled in: every label followed by its value, each
field after the first on a new line. -/
theorem statusMessage_eq (ss : SealStatusResponse) (ls : LeaderResponse) (a b : String) :
    statusMessage ss ls a b =
      "Sealed: " ++ toString ss.Sealed ++ "\n\tKey Shares: " ++ toString ss.N
        ++ "\n\tKey Threshold: " ++ toString ss.T ++ "\n\tUnseal Progress: "
        ++ toString ss.Progress ++ "\nHA Enabled: " ++ toString ls.HAEnabled
        ++ "\n\tIs Leader: " ++ a ++ "\n\tLeader Address: " ++ b := by
  rw [← mk_fmtInt, ← mk_fmtInt, ← mk_fmtInt, ← mk_fmtBool, ← mk_fmtBool]
  unfold statusMessage Sprintf
  apply String.ext
  simp [sprintfChars, formatOperand, Operand.render, extraOperands]

/-- Joining the seven lines with newlines gives the filled-in template. -/
theorem intercalate_statusLines (s : Bool) (n t p : Int) (h : Bool) (a b : String) :
    "\n".intercalate (statusLines s n t p h a b) =
      "Sealed: " ++ toString s ++ "\n\tKey Shares: " ++ toString n
        ++ "\n\tKey Threshold: " ++ toString t ++ "\n\tUnseal Progress: "
        ++ toString p ++ "\nHA Enabled: " ++ toString h
        ++ "\n\tIs Leader: " ++ a ++ "\n\tLeader Address: " ++ b := by
  apply String.ext
  simp [statusLines, String.intercalate, String.intercalate.go]

/-! ## Properties of `Run` -/

/-- A run whose arguments parse and whose three collaborator calls succeed. -/
theorem Run_of_success (c : StatusCommand) (args : List String) (client : Client)
    (ss : SealStatusResponse) (ls : LeaderResponse)
    (hp : c.Meta.Parse args = .ok) (hc : c.Meta.Client = .ok client)
    (hs : client.SealStatus = .ok ss) (hl : client.Leader = .ok ls) :
    c.Run args =
      { code := if ss.Sealed then 1 else 0
        trace := [.flagsParse args, .newClient, .sealStatusQuery, .leaderQuery,
          .uiOutput (statusMessage ss ls (leaderFields ss ls).1 (leaderFields ss ls).2)] } := by
  simp [StatusCommand.Run, hp, hc, hs, hl]

/-- A run whose arguments do not parse. -/
theorem Run_of_parse_failure (c : StatusCommand) (args : List String) (ui : List String)
    (hp : c.Meta.Parse args = .failed ui) :
    c.Run args = { code := 1, trace := .flagsParse args :: ui.map .uiError } := by
  simp [StatusCommand.Run, hp]

/-- A run whose client cannot be created. -/
theorem Run_of_client_error (c : StatusCommand) (args : List String) (e : String)
    (hp : c.Meta.Parse args = .ok) (hc : c.Meta.Client = .error e) :
    c.Run args =
      { code := 2
        trace := [.flagsParse args, .newClient,
          .uiError ("Error initializing client: " ++ e)] } := by
  simp [StatusCommand.Run, hp, hc, Sprintf_client_error]

/-- A run whose seal-status query fails. -/
theorem Run_of_seal_error (c : StatusCommand) (args : List String) (client : Client)
    (e : String) (hp : c.Meta.Parse args = .ok) (hc : c.Meta.Client = .ok client)
    (hs : client.SealStatus = .error e) :
    c.Run args =
      { code := 2
        trace := [.flagsParse args, .newClient, .sealStatusQuery,
          .uiError ("Error checking seal status: " ++ e)] } := by
  simp [StatusCommand.Run, hp, hc, hs, Sprintf_seal_error]

/-- A run whose leader-status query fails. -/
theorem Run_of_leader_error (c : StatusCommand) (args : List String) (client : Client)
    (ss : SealStatusResponse) (e : String)
    (hp : c.Meta.Parse args = .ok) (hc : c.Meta.Client = .ok client)
    (hs : client.SealStatus = .ok ss) (hl : client.Leader = .error e) :
    c.Run args =
      { code := 2
        trace := [.flagsParse args, .newClient, .sealStatusQuery, .leaderQuery,
          .uiError ("Error checking leader status: " ++ e)] } := by
  simp [StatusCommand.Run, hp, hc, hs, hl, Sprintf_leader_error]

/-- Either all three collaborator calls succeed or one of them fails. -/
theorem someFails_eq_not_allSucceed (c : StatusCommand) :
    c.someFails = !c.allSucceed := by
  unfold StatusCommand.someFails StatusCommand.allSucceed
  cases c.Meta.Client with
  | error e => rfl
  | ok client =>
    cases hs : client.SealStatus <;> cases hl : client.Leader <;> simp [hs, hl]

/-- The client is created exactly in the runs whose arguments parse. -/
theorem newClient_mem_trace_iff (c : StatusCommand) (args : List String) :
    Event.newClient ∈ (c.Run args).trace ↔ c.Meta.Parse args = .ok := by
  cases hp : c.Meta.Parse args with
  | failed ui => simp [Run_of_parse_failure c args ui hp]
  | ok =>
    cases hc : c.Meta.Client with
    | error e => simp [Run_of_client_error c args e hp hc]
    | ok client =>
      cases hs : client.SealStatus with
      | error e => simp [Run_of_seal_error c args client e hp hc hs]
      | ok ss =>
        cases hl : client.Leader with
        | error e => simp [Run_of_leader_error c args client ss e hp hc hs hl]
        | ok ls => simp [Run_of_success c args client ss ls hp hc hs hl]

/-- C1: when the arguments parse, the client is created and both queries
succeed with a seal status that is sealed, whatever the leader status holds,
the derived `isLeader` and `leaderAddress` are both "unknown while sealed",
the one message sent to `Ui.Output` shows them after `Is Leader:` and
`Leader Address:`, and `Run` returns 1. -/
theorem Run_sealed_reports_unknown (c : StatusCommand) (args : List String) (client : Client)
    (ss : SealStatusResponse) (ls : LeaderResponse)
    (hp : c.Meta.Parse args = .ok) (hc : c.Meta.Client = .ok client)
    (hs : client.SealStatus = .ok ss) (hl : client.Leader = .ok ls)
    (hsealed : ss.Sealed = true) :
    leaderFields ss ls = ("unknown while sealed", "unknown while sealed") ∧
    uiOutputs (c.Run args).trace =
      ["Sealed: true\n\tKey Shares: " ++ toString ss.N
        ++ "\n\tKey Threshold: " ++ toString ss.T
        ++ "\n\tUnseal Progress: " ++ toString ss.Progress
        ++ "\nHA Enabled: " ++ toString ls.HAEnabled
        ++ "\n\tIs Leader: unknown while sealed\n\tLeader Address: unknown while sealed"] ∧
    uiErrors (c.Run args).trace = [] ∧
    (c.Run args).code = 1 := by
  have hf : leaderFields ss ls = ("unknown while sealed", "unknown while sealed") := by
    simp [leaderFields, hsealed]
  rw [Run_of_success c args client ss ls hp hc hs hl, hf, statusMessage_eq]
  refine ⟨rfl, ?_, by simp [uiErrors], by simp [hsealed]⟩
  simp only [uiOutputs, hsealed, List.cons.injEq, and_true]
  apply String.ext
  simp [toString_true]

/-- C1 at a sealed node whose leader query answers with HA data. -/
theorem Run_sealed_reports_unknown_witness :
    sealedNode.Meta.Parse [] = .ok ∧
    leaderFields ⟨true, 5, 3, 1⟩ ⟨true, true, "https://10.0.0.7:8200"⟩
      = ("unknown while sealed", "unknown while sealed") ∧
    uiOutputs (sealedNode.Run []).trace =
      ["Sealed: true\n\tKey Shares: " ++ toString (5 : Int)
        ++ "\n\tKey Threshold: " ++ toString (3 : Int)
        ++ "\n\tUnseal Progress: " ++ toString (1 : Int)
        ++ "\nHA Enabled: " ++ toString true
        ++ "\n\tIs Leader: unknown while sealed\n\tLeader Address: unknown while sealed"] ∧
    uiErrors (sealedNode.Run []).trace = [] ∧
    (sealedNode.Run []).code = 1 :=
  ⟨rfl, Run_sealed_reports_unknown sealedNode []
    { SealStatus := .ok ⟨true, 5, 3, 1⟩, Leader := .ok ⟨true, true, "https://10.0.0.7:8200"⟩ }
    ⟨true, 5, 3, 1⟩ ⟨true, true, "https://10.0.0.7:8200"⟩ rfl rfl rfl rfl rfl⟩

/-- C2: when the arguments parse, the client is created and both queries
succeed with an unsealed seal status and a leader status whose `HAEnabled` is
false, whatever `IsSelf` and `LeaderAddress` hold, the derived `isLeader` and
`leaderAddress` are both "n/a", the one message sent to `Ui.Output` shows
them, and `Run` returns 0. -/
theorem Run_unsealed_without_ha_reports_na (c : StatusCommand) (args : List String)
    (client : Client) (ss : SealStatusResponse) (ls : LeaderResponse)
    (hp : c.Meta.Parse args = .ok) (hc : c.Meta.Client = .ok client)
    (hs : client.SealStatus = .ok ss) (hl : client.Leader = .ok ls)
    (hsealed : ss.Sealed = false) (hha : ls.HAEnabled = false) :
    leaderFields ss ls = ("n/a", "n/a") ∧
    uiOutputs (c.Run args).trace =
      ["Sealed: false\n\tKey Shares: " ++ toString ss.N
        ++ "\n\tKey Threshold: " ++ toString ss.T
        ++ "\n\tUnseal Progress: " ++ toString ss.Progress
        ++ "\nHA Enabled: false\n\tIs Leader: n/a\n\tLeader Address: n/a"] ∧
    uiErrors (c.Run args).trace = [] ∧
    (c.Run args).code = 0 := by
  have hf : leaderFields ss ls = ("n/a", "n/a") := by
    simp [leaderFields, hsealed, hha]
  rw [Run_of_success c args client ss ls hp hc hs hl, hf, statusMessage_eq]
  refine ⟨rfl, ?_, by simp [uiErrors], by simp [hsealed]⟩
  simp only [uiOutputs, hsealed, hha, List.cons.injEq, and_true]
  apply String.ext
  simp [toString_false]

/-- C2 at an unsealed node outside HA mode. -/
theorem Run_unsealed_without_ha_reports_na_witness :
    standaloneNode.Meta.Parse [] = .ok ∧
    leaderFields ⟨false, 5, 3, 0⟩ ⟨false, false, ""⟩ = ("n/a", "n/a") ∧
    uiOutputs (standaloneNode.Run []).trace =
      ["Sealed: false\n\tKey Shares: " ++ toString (5 : Int)
        ++ "\n\tKey Threshold: " ++ toString (3 : Int)
        ++ "\n\tUnseal Progress: " ++ toString (0 : Int)
        ++ "\nHA Enabled: false\n\tIs Leader: n/a\n\tLeader Address: n/a"] ∧
    uiErrors (standaloneNode.Run []).trace = [] ∧
    (standaloneNode.Run []).code = 0 :=
  ⟨rfl, Run_unsealed_without_ha_reports_na standaloneNode []
    { SealStatus := .ok ⟨false, 5, 3, 0⟩, Leader := .ok ⟨false, false, ""⟩ }
    ⟨false, 5, 3, 0⟩ ⟨false, false, ""⟩ rfl rfl rfl rfl rfl rfl⟩

/-- C3: when the arguments parse, the client is created and both queries
succeed with an unsealed seal status and a leader status whose `HAEnabled` is
true, the derived `isLeader` is "true" when `IsSelf` is true and "false"
otherwise, the derived `leaderAddress` is the fetched `LeaderAddress`
unchanged (empty when it is empty), the one message sent to `Ui.Output` shows
them, and `Run` returns 0. -/
theorem Run_unsealed_with_ha_reports_leader (c : StatusCommand) (args : List String)
    (client : Client) (ss : SealStatusResponse) (ls : LeaderResponse)
    (hp : c.Meta.Parse args = .ok) (hc : c.Meta.Client = .ok client)
    (hs : client.SealStatus = .ok ss) (hl : client.Leader = .ok ls)
    (hsealed : ss.Sealed = false) (hha : ls.HAEnabled = true) :
    leaderFields ss ls = (if ls.IsSelf then "true" else "false", ls.LeaderAddress) ∧
    uiOutputs (c.Run args).trace =
      ["Sealed: false\n\tKey Shares: " ++ toString ss.N
        ++ "\n\tKey Threshold: " ++ toString ss.T
        ++ "\n\tUnseal Progress: " ++ toString ss.Progress
        ++ "\nHA Enabled: true\n\tIs Leader: " ++ (if ls.IsSelf then "true" else "false")
        ++ "\n\tLeader Address: " ++ ls.LeaderAddress] ∧
    uiErrors (c.Run args).trace = [] ∧
    (c.Run args).code = 0 := by
  have hf : leaderFields ss ls
      = (if ls.IsSelf then "true" else "false", ls.LeaderAddress) := by
    simp [leaderFields, hsealed, hha, Sprintf_v_bool]
  rw [Run_of_success c args client ss ls hp hc hs hl, hf, statusMessage_eq]
  refine ⟨rfl, ?_, by simp [uiErrors], by simp [hsealed]⟩
  simp only [uiOutputs, hsealed, hha, List.cons.injEq, and_true]
  apply String.ext
  simp [toString_false, toString_true]

/-- C3 at an unsealed HA standby whose leader address is empty. -/
theorem Run_unsealed_with_ha_reports_leader_witness :
    leaderlessNode.Meta.Parse [] = .ok ∧
    leaderFields ⟨false, 5, 3, 0⟩ ⟨true, false, ""⟩
      = (if (false : Bool) then "true" else "false", "") ∧
    uiOutputs (leaderlessNode.Run []).trace =
      ["Sealed: false\n\tKey Shares: " ++ toString (5 : Int)
        ++ "\n\tKey Threshold: " ++ toString (3 : Int)
        ++ "\n\tUnseal Progress: " ++ toString (0 : Int)
        ++ "\nHA Enabled: true\n\tIs Leader: " ++ (if (false : Bool) then "true" else "false")
        ++ "\n\tLeader Address: " ++ ""] ∧
    uiErrors (leaderlessNode.Run []).trace = [] ∧
    (leaderlessNode.Run []).code = 0 :=
  ⟨rfl, Run_unsealed_with_ha_reports_leader leaderlessNode []
    { SealStatus := .ok ⟨false, 5, 3, 0⟩, Leader := .ok ⟨true, false, ""⟩ }
    ⟨false, 5, 3, 0⟩ ⟨true, false, ""⟩ rfl rfl rfl rfl rfl rfl⟩

/-- C4: when the arguments parse, the client is created and the seal-status
query succeeds, with a sealed or an unsealed status alike, and the
leader-status query then fails, `Run` returns 2, hence neither 1 nor 0, and
sends no status text to `Ui.Output`. -/
theorem Run_leader_error_exit_code (c : StatusCommand) (args : List String)
    (client : Client) (ss : SealStatusResponse) (e : String)
    (hp : c.Meta.Parse args = .ok) (hc : c.Meta.Client = .ok client)
    (hs : client.SealStatus = .ok ss) (hl : client.Leader = .error e) :
    (c.Run args).code = 2 ∧ (c.Run args).code ≠ 1 ∧ (c.Run args).code ≠ 0 ∧
    uiOutputs (c.Run args).trace = [] := by
  rw [Run_of_leader_error c args client ss e hp hc hs hl]
  simp [uiOutputs]

/-- C4 at a sealed node whose leader query fails. -/
theorem Run_leader_error_exit_code_witness :
    leaderQueryDown.Meta.Parse [] = .ok ∧
    ((leaderQueryDown.Run []).code = 2 ∧ (leaderQueryDown.Run []).code ≠ 1 ∧
      (leaderQueryDown.Run []).code ≠ 0 ∧ uiOutputs (leaderQueryDown.Run []).trace = []) :=
  ⟨rfl, Run_leader_error_exit_code leaderQueryDown []
    { SealStatus := .ok ⟨true, 5, 3, 1⟩, Leader := .error "connection refused" }
    ⟨true, 5, 3, 1⟩ "connection refused" rfl rfl rfl rfl⟩

/-- C5: when the arguments parse, the client is created and the seal-status
query fails, `Run` returns 2; its steps are exactly the flag parse, the client
creation, the seal-status query and one `Ui.Error` call with
"Error checking seal status: " followed by the error text, so the
leader-status query is not made and nothing is sent to `Ui.Output`; and the
whole result is the same whatever the leader-status query would have
returned. -/
theorem Run_seal_error_short_circuits (c : StatusCommand) (args : List String)
    (client : Client) (e : String)
    (hp : c.Meta.Parse args = .ok) (hc : c.Meta.Client = .ok client)
    (hs : client.SealStatus = .error e) :
    (c.Run args).code = 2 ∧
    (c.Run args).trace =
      [.flagsParse args, .newClient, .sealStatusQuery,
        .uiError ("Error checking seal status: " ++ e)] ∧
    Event.leaderQuery ∉ (c.Run args).trace ∧
    uiOutputs (c.Run args).trace = [] ∧
    uiErrors (c.Run args).trace = ["Error checking seal status: " ++ e] ∧
    ∀ leader : Except String LeaderResponse,
      StatusCommand.Run
        { Meta := { Parse := c.Meta.Parse
                    Client := .ok { SealStatus := client.SealStatus, Leader := leader } } }
        args = c.Run args := by
  rw [Run_of_seal_error c args client e hp hc hs]
  refine ⟨rfl, rfl, by simp, by simp [uiOutputs], by simp [uiErrors], ?_⟩
  intro leader
  exact Run_of_seal_error _ args { SealStatus := client.SealStatus, Leader := leader } e hp rfl hs

/-- C5 at a node whose seal-status query is refused while its leader query
would answer. -/
theorem Run_seal_error_short_circuits_witness :
    sealQueryDown.Meta.Parse ["-address=https://10.0.0.7:8200"] = .ok ∧
    (sealQueryDown.Run ["-address=https://10.0.0.7:8200"]).code = 2 ∧
    (sealQueryDown.Run ["-address=https://10.0.0.7:8200"]).trace =
      [.flagsParse ["-address=https://10.0.0.7:8200"], .newClient, .sealStatusQuery,
        .uiError ("Error checking seal status: " ++ "connection refused")] ∧
    Event.leaderQuery ∉ (sealQueryDown.Run ["-address=https://10.0.0.7:8200"]).trace :=
  have h := Run_seal_error_short_circuits sealQueryDown ["-address=https://10.0.0.7:8200"]
    { SealStatus := .error "connection refused"
      Leader := .ok ⟨true, true, "https://10.0.0.7:8200"⟩ }
    "connection refused" rfl rfl rfl
  ⟨rfl, h.1, h.2.1, h.2.2.1⟩

/-- A text without a newline character is one line. -/
theorem linesOf_of_no_newline (p : List Char) (h : '\n' ∉ p) : linesOf p = [p] := by
  induction p with
  | nil => rfl
  | cons c p ih =>
    have hc : c ≠ '\n' := fun hc => h (by simp [hc])
    have hp : '\n' ∉ p := fun hp => h (List.mem_cons_of_mem _ hp)
    simp [linesOf, hc, ih hp]

/-- The first line of a text ends at its first newline character. -/
theorem linesOf_append_newline (p q : List Char) (h : '\n' ∉ p) :
    linesOf (p ++ '\n' :: q) = p :: linesOf q := by
  induction p with
  | nil => simp [linesOf]
  | cons c p ih =>
    have hc : c ≠ '\n' := fun hc => h (by simp [hc])
    have hp : '\n' ∉ p := fun hp => h (List.mem_cons_of_mem _ hp)
    simp [linesOf, hc, ih hp]

/-- No digit character is a newline. -/
theorem digitChar_ne_newline (d : Nat) : Nat.digitChar d ≠ '\n' := by
  by_cases hd : d < 16
  · interval_cases d <;> decide
  · obtain ⟨k, rfl⟩ : ∃ k, d = k + 16 := ⟨d - 16, by omega⟩
    have hk : Nat.digitChar (k + 16) = '*' := rfl
    rw [hk]
    decide

/-- The digits of a number hold no newline. -/
theorem newline_not_mem_toDigitsCore (fuel : Nat) :
    ∀ (n : Nat) (acc : List Char), '\n' ∉ acc → '\n' ∉ Nat.toDigitsCore 10 fuel n acc := by
  induction fuel with
  | zero => intro n acc h; simpa [Nat.toDigitsCore] using h
  | succ fuel ih =>
    intro n acc h
    have hacc : '\n' ∉ Nat.digitChar (n % 10) :: acc := by
      intro hm
      rcases List.mem_cons.mp hm with hd | hd
      · exact digitChar_ne_newline _ hd.symm
      · exact h hd
    unfold Nat.toDigitsCore
    simp only
    split
    · exact hacc
    · exact ih _ _ hacc

/-- The decimal text of an integer holds no newline. -/
theorem newline_not_mem_toString_int (i : Int) : '\n' ∉ (toString i).toList := by
  rw [← mk_fmtInt]
  cases i with
  | ofNat n =>
    exact newline_not_mem_toDigitsCore _ _ _ (by simp)
  | negSucc n =>
    intro hm
    rcases List.mem_cons.mp hm with hd | hd
    · exact absurd hd (by decide)
    · exact newline_not_mem_toDigitsCore _ _ _ (by simp) hd

/-- The text of a boolean holds no newline. -/
theorem newline_not_mem_toString_bool (b : Bool) : '\n' ∉ (toString b).toList := by
  cases b <;> decide

/-- The derived `isLeader` never holds a newline. -/
theorem newline_not_mem_isLeader (ss : SealStatusResponse) (ls : LeaderResponse) :
    '\n' ∉ (leaderFields ss ls).1.toList := by
  obtain ⟨isSealed, n, t, p⟩ := ss
  obtain ⟨ha, isSelf, addr⟩ := ls
  cases isSealed <;> cases ha <;> cases isSelf <;>
    simp [leaderFields, Sprintf_v_bool]

/-- The lines of the filled-in template are the seven labelled lines when
the last value holds no newline. -/
theorem textLines_template (s : Bool) (n t p : Int) (h : Bool) (a b : String)
    (ha : '\n' ∉ a.toList) (hb : '\n' ∉ b.toList) :
    textLines ("Sealed: " ++ toString s ++ "\n\tKey Shares: " ++ toString n
        ++ "\n\tKey Threshold: " ++ toString t ++ "\n\tUnseal Progress: "
        ++ toString p ++ "\nHA Enabled: " ++ toString h
        ++ "\n\tIs Leader: " ++ a ++ "\n\tLeader Address: " ++ b)
      = statusLines s n t p h a b := by
  have e :
      ("Sealed: " ++ toString s ++ "\n\tKey Shares: " ++ toString n
        ++ "\n\tKey Threshold: " ++ toString t ++ "\n\tUnseal Progress: "
        ++ toString p ++ "\nHA Enabled: " ++ toString h
        ++ "\n\tIs Leader: " ++ a ++ "\n\tLeader Address: " ++ b).toList
      = ("Sealed: ".toList ++ (toString s).toList) ++ '\n' ::
        (("\tKey Shares: ".toList ++ (toString n).toList) ++ '\n' ::
        (("\tKey Threshold: ".toList ++ (toString t).toList) ++ '\n' ::
        (("\tUnseal Progress: ".toList ++ (toString p).toList) ++ '\n' ::
        (("HA Enabled: ".toList ++ (toString h).toList) ++ '\n' ::
        (("\tIs Leader: ".toList ++ a.toList) ++ '\n' ::
        ("\tLeader Address: ".toList ++ b.toList)))))) := by
    simp
  have hs := newline_not_mem_toString_bool s
  have hn := newline_not_mem_toString_int n
  have ht := newline_not_mem_toString_int t
  have hp := newline_not_mem_toString_int p
  have hh := newline_not_mem_toString_bool h
  have lit : ∀ (l v : List Char), '\n' ∉ l → '\n' ∉ v → '\n' ∉ l ++ v := by
    intro l v hl hv hm
    rcases List.mem_append.mp hm with hm | hm
    · exact hl hm
    · exact hv hm
  unfold textLines
  rw [e,
    linesOf_append_newline _ _ (lit _ _ (by decide) hs),
    linesOf_append_newline _ _ (lit _ _ (by decide) hn),
    linesOf_append_newline _ _ (lit _ _ (by decide) ht),
    linesOf_append_newline _ _ (lit _ _ (by decide) hp),
    linesOf_append_newline _ _ (lit _ _ (by decide) hh),
    linesOf_append_newline _ _ (lit _ _ (by decide) ha),
    linesOf_of_no_newline _ (lit _ _ (by decide) hb)]
  simp only [statusLines, List.map]
  rfl

/-- A text whose non-empty tail holds no newline does not end in one. -/
theorem getLast?_append_ne_newline (x y : List Char) (hy : y ≠ []) (h : '\n' ∉ y) :
    (x ++ y).getLast? ≠ some '\n' := by
  rw [List.getLast?_append_of_ne_nil x hy]
  intro hl
  exact h (List.mem_of_getLast?_eq_some hl)

/-- The filled-in template does not end in a newline when the last value
holds none. -/
theorem template_no_trailing_newline (s : Bool) (n t p : Int) (h : Bool) (a b : String)
    (hb : '\n' ∉ b.toList) :
    ("Sealed: " ++ toString s ++ "\n\tKey Shares: " ++ toString n
        ++ "\n\tKey Threshold: " ++ toString t ++ "\n\tUnseal Progress: "
        ++ toString p ++ "\nHA Enabled: " ++ toString h
        ++ "\n\tIs Leader: " ++ a ++ "\n\tLeader Address: " ++ b).toList.getLast?
      ≠ some '\n' := by
  have e :
      ("Sealed: " ++ toString s ++ "\n\tKey Shares: " ++ toString n
        ++ "\n\tKey Threshold: " ++ toString t ++ "\n\tUnseal Progress: "
        ++ toString p ++ "\nHA Enabled: " ++ toString h
        ++ "\n\tIs Leader: " ++ a ++ "\n\tLeader Address: " ++ b).toList
      = ("Sealed: " ++ toString s ++ "\n\tKey Shares: " ++ toString n
        ++ "\n\tKey Threshold: " ++ toString t ++ "\n\tUnseal Progress: "
        ++ toString p ++ "\nHA Enabled: " ++ toString h
        ++ "\n\tIs Leader: " ++ a ++ "\n").toList
        ++ ("\tLeader Address: ".toList ++ b.toList) := by
    simp
  rw [e]
  apply getLast?_append_ne_newline
  · simp
  · intro hm
    rcases List.mem_append.mp hm with hm | hm
    · exact absurd hm (by decide)
    · exact hb hm

/-- The derived `leaderAddress` holds no newline when the node is sealed, when
HA is disabled, or when the fetched leader address holds none. -/
theorem newline_not_mem_leaderAddress (ss : SealStatusResponse) (ls : LeaderResponse)
    (h : ss.Sealed = true ∨ ls.HAEnabled = false ∨ '\n' ∉ ls.LeaderAddress.toList) :
    '\n' ∉ (leaderFields ss ls).2.toList := by
  obtain ⟨isSealed, n, t, p⟩ := ss
  obtain ⟨ha, isSelf, addr⟩ := ls
  cases isSealed <;> cases ha <;> simp [leaderFields] at h ⊢
  exact h

/-- C7 (as amended): when the arguments parse, the client is created and both
queries succeed, `Run` sends `Ui.Output` exactly one message: the seven
labelled fields `Sealed`, `Key Shares`, `Key Threshold`, `Unseal Progress`,
`HA Enabled`, `Is Leader`, `Leader Address` in that order, joined by single
newlines, the indented ones starting with a tab, carrying `Sealed`, `N`, `T`
and `Progress` (in decimal), `HAEnabled` and the derived `isLeader` and
`leaderAddress`, with nothing after the derived leader address; no relation
between the values is required. When the node is sealed, HA is disabled, or
the fetched leader address holds no newline character, the lines of that
message are exactly these seven and the message does not end in a newline. -/
theorem Run_output_is_fixed_template (c : StatusCommand) (args : List String)
    (client : Client) (ss : SealStatusResponse) (ls : LeaderResponse)
    (hp : c.Meta.Parse args = .ok) (hc : c.Meta.Client = .ok client)
    (hs : client.SealStatus = .ok ss) (hl : client.Leader = .ok ls) :
    ∃ text : String,
      uiOutputs (c.Run args).trace = [text] ∧
      text = "\n".intercalate
        (statusLines ss.Sealed ss.N ss.T ss.Progress ls.HAEnabled
          (leaderFields ss ls).1 (leaderFields ss ls).2) ∧
      text = "Sealed: " ++ toString ss.Sealed
        ++ "\n\tKey Shares: " ++ toString ss.N
        ++ "\n\tKey Threshold: " ++ toString ss.T
        ++ "\n\tUnseal Progress: " ++ toString ss.Progress
        ++ "\nHA Enabled: " ++ toString ls.HAEnabled
        ++ "\n\tIs Leader: " ++ (leaderFields ss ls).1
        ++ "\n\tLeader Address: " ++ (leaderFields ss ls).2 ∧
      ((ss.Sealed = true ∨ ls.HAEnabled = false ∨ '\n' ∉ ls.LeaderAddress.toList) →
        textLines text =
          statusLines ss.Sealed ss.N ss.T ss.Progress ls.HAEnabled
            (leaderFields ss ls).1 (leaderFields ss ls).2 ∧
        (textLines text).length = 7 ∧
        text.toList.getLast? ≠ some '\n') := by
  refine ⟨_, ?_, ?_, rfl, ?_⟩
  · rw [Run_of_success c args client ss ls hp hc hs hl, statusMessage_eq]
    rfl
  · rw [intercalate_statusLines]
  · intro h
    have hb := newline_not_mem_leaderAddress ss ls h
    have hlines := textLines_template ss.Sealed ss.N ss.T ss.Progress ls.HAEnabled
      (leaderFields ss ls).1 (leaderFields ss ls).2 (newline_not_mem_isLeader ss ls) hb
    refine ⟨hlines, ?_, template_no_trailing_newline _ _ _ _ _ _ _ hb⟩
    rw [hlines]
    rfl

/-- C7 (as amended) at an unsealed HA standby whose unseal progress (4)
exceeds the key threshold (3). -/
theorem Run_output_is_fixed_template_witness :
    standbyNode.Meta.Parse [] = .ok ∧
    ∃ text : String,
      uiOutputs (standbyNode.Run []).trace = [text] ∧
      text = "\n".intercalate
        (statusLines false 5 3 4 true
          (leaderFields ⟨false, 5, 3, 4⟩ ⟨true, false, "https://10.0.0.8:8200"⟩).1
          (leaderFields ⟨false, 5, 3, 4⟩ ⟨true, false, "https://10.0.0.8:8200"⟩).2) ∧
      textLines text =
        statusLines false 5 3 4 true
          (leaderFields ⟨false, 5, 3, 4⟩ ⟨true, false, "https://10.0.0.8:8200"⟩).1
          (leaderFields ⟨false, 5, 3, 4⟩ ⟨true, false, "https://10.0.0.8:8200"⟩).2 ∧
      (textLines text).length = 7 ∧
      text.toList.getLast? ≠ some '\n' :=
  let ⟨text, hout, hjoin, _, hlines⟩ := Run_output_is_fixed_template standbyNode []
    { SealStatus := .ok ⟨false, 5, 3, 4⟩
      Leader := .ok ⟨true, false, "https://10.0.0.8:8200"⟩ }
    ⟨false, 5, 3, 4⟩ ⟨true, false, "https://10.0.0.8:8200"⟩ rfl rfl rfl rfl
  ⟨rfl, text, hout, hjoin, hlines (Or.inr (Or.inr (by decide)))⟩

/-- C7 (as stated) fails: an unsealed HA node whose leader query answers with
the address "x\n\tSealed: true\n" makes `Run` send `Ui.Output` a message of
nine lines that ends in a newline, not the seven labelled lines. -/
theorem Run_output_not_seven_lines :
    uiOutputs (multilineAddressNode.Run []).trace =
      ["Sealed: false\n\tKey Shares: 5\n\tKey Threshold: 3\n\tUnseal Progress: 0\n" ++
        "HA Enabled: true\n\tIs Leader: false\n\tLeader Address: x\n\tSealed: true\n"] ∧
    textLines
      ("Sealed: false\n\tKey Shares: 5\n\tKey Threshold: 3\n\tUnseal Progress: 0\n" ++
        "HA Enabled: true\n\tIs Leader: false\n\tLeader Address: x\n\tSealed: true\n") =
      ["Sealed: false", "\tKey Shares: 5", "\tKey Threshold: 3", "\tUnseal Progress: 0",
        "HA Enabled: true", "\tIs Leader: false", "\tLeader Address: x", "\tSealed: true", ""] ∧
    (textLines
      ("Sealed: false\n\tKey Shares: 5\n\tKey Threshold: 3\n\tUnseal Progress: 0\n" ++
        "HA Enabled: true\n\tIs Leader: false\n\tLeader Address: x\n\tSealed: true\n")).length
      = 9 ∧
    ("Sealed: false\n\tKey Shares: 5\n\tKey Threshold: 3\n\tUnseal Progress: 0\n" ++
        "HA Enabled: true\n\tIs Leader: false\n\tLeader Address: x\n\tSealed: true\n"
      ).toList.getLast? = some '\n' := by
  refine ⟨by decide, by decide, by decide, by decide⟩

/-- C8: in a run whose arguments parse, if client creation, the seal-status
query or the leader-status query fails, nothing is sent to `Ui.Output` and
exactly one message is sent to `Ui.Error`; if all three succeed, exactly one
message is sent to `Ui.Output` and nothing to `Ui.Error`. -/
theorem Run_output_channels_disjoint (c : StatusCommand) (args : List String)
    (hp : c.Meta.Parse args = .ok) :
    (c.someFails = true →
      uiOutputs (c.Run args).trace = [] ∧ (uiErrors (c.Run args).trace).length = 1) ∧
    (c.allSucceed = true →
      (uiOutputs (c.Run args).trace).length = 1 ∧ uiErrors (c.Run args).trace = []) := by
  cases hc : c.Meta.Client with
  | error e =>
    rw [Run_of_client_error c args e hp hc]
    simp [StatusCommand.allSucceed, hc, uiOutputs, uiErrors]
  | ok client =>
    cases hs : client.SealStatus with
    | error e =>
      rw [Run_of_seal_error c args client e hp hc hs]
      simp [StatusCommand.allSucceed, hc, hs, uiOutputs, uiErrors]
    | ok ss =>
      cases hl : client.Leader with
      | error e =>
        rw [Run_of_leader_error c args client ss e hp hc hs hl]
        simp [StatusCommand.allSucceed, hc, hs, hl, uiOutputs, uiErrors]
      | ok ls =>
        rw [Run_of_success c args client ss ls hp hc hs hl]
        simp [StatusCommand.someFails, hc, hs, hl, uiOutputs, uiErrors]

/-- C8 at a command without a client and at an unsealed leader. -/
theorem Run_output_channels_disjoint_witness :
    (noClient.Meta.Parse [] = .ok ∧ noClient.someFails = true ∧
      uiOutputs (noClient.Run []).trace = [] ∧ (uiErrors (noClient.Run []).trace).length = 1) ∧
    (leaderNode.Meta.Parse [] = .ok ∧ leaderNode.allSucceed = true ∧
      (uiOutputs (leaderNode.Run []).trace).length = 1 ∧
      uiErrors (leaderNode.Run []).trace = []) :=
  ⟨⟨rfl, rfl, (Run_output_channels_disjoint noClient [] rfl).1 rfl⟩,
   ⟨rfl, rfl, (Run_output_channels_disjoint leaderNode [] rfl).2 rfl⟩⟩

/-- C9: take three runs whose arguments parse, the first failing at client
creation with error text `e1`, the second at the seal-status query with `e2`,
the third at the leader-status query with `e3`. All three return 2; each
sends `Ui.Error` one message, "Error initializing client: " ++ e1,
"Error checking seal status: " ++ e2 and "Error checking leader status: " ++ e3
respectively; and these three messages are pairwise different strings,
whatever the error texts are. -/
theorem Run_errors_same_code_distinct_messages
    (c1 c2 c3 : StatusCommand) (args1 args2 args3 : List String)
    (client2 client3 : Client) (ss3 : SealStatusResponse) (e1 e2 e3 : String)
    (hp1 : c1.Meta.Parse args1 = .ok) (hc1 : c1.Meta.Client = .error e1)
    (hp2 : c2.Meta.Parse args2 = .ok) (hc2 : c2.Meta.Client = .ok client2)
    (hs2 : client2.SealStatus = .error e2)
    (hp3 : c3.Meta.Parse args3 = .ok) (hc3 : c3.Meta.Client = .ok client3)
    (hs3 : client3.SealStatus = .ok ss3) (hl3 : client3.Leader = .error e3) :
    ((c1.Run args1).code = 2 ∧ (c2.Run args2).code = 2 ∧ (c3.Run args3).code = 2) ∧
    (uiErrors (c1.Run args1).trace = ["Error initializing client: " ++ e1] ∧
      uiErrors (c2.Run args2).trace = ["Error checking seal status: " ++ e2] ∧
      uiErrors (c3.Run args3).trace = ["Error checking leader status: " ++ e3]) ∧
    ("Error initializing client: " ++ e1 ≠ "Error checking seal status: " ++ e2 ∧
      "Error initializing client: " ++ e1 ≠ "Error checking leader status: " ++ e3 ∧
      "Error checking seal status: " ++ e2 ≠ "Error checking leader status: " ++ e3) := by
  rw [Run_of_client_error c1 args1 e1 hp1 hc1, Run_of_seal_error c2 args2 client2 e2 hp2 hc2 hs2,
    Run_of_leader_error c3 args3 client3 ss3 e3 hp3 hc3 hs3 hl3]
  refine ⟨⟨rfl, rfl, rfl⟩, ⟨rfl, rfl, rfl⟩, ?_, ?_, ?_⟩ <;>
  · intro h
    have h' := congrArg String.data h
    simp at h'

/-- C9 at three failing commands with equal error texts at the two queries. -/
theorem Run_errors_same_code_distinct_messages_witness :
    ((noClient.Run []).code = 2 ∧ (sealQueryDown.Run []).code = 2 ∧
      (leaderQueryDown.Run []).code = 2) ∧
    (uiErrors (noClient.Run []).trace = ["Error initializing client: " ++ "invalid address"] ∧
      uiErrors (sealQueryDown.Run []).trace
        = ["Error checking seal status: " ++ "connection refused"] ∧
      uiErrors (leaderQueryDown.Run []).trace
        = ["Error checking leader status: " ++ "connection refused"]) ∧
    ("Error initializing client: " ++ "invalid address"
        ≠ "Error checking seal status: " ++ "connection refused" ∧
      "Error initializing client: " ++ "invalid address"
        ≠ "Error checking leader status: " ++ "connection refused" ∧
      "Error checking seal status: " ++ "connection refused"
        ≠ "Error checking leader status: " ++ "connection refused") :=
  Run_errors_same_code_distinct_messages noClient sealQueryDown leaderQueryDown [] [] []
    { SealStatus := .error "connection refused"
      Leader := .ok ⟨true, true, "https://10.0.0.7:8200"⟩ }
    { SealStatus := .ok ⟨true, 5, 3, 1⟩, Leader := .error "connection refused" }
    ⟨true, 5, 3, 1⟩ "invalid address" "connection refused" "connection refused"
    rfl rfl rfl rfl rfl rfl rfl rfl rfl

/-- C10: take two runs whose arguments parse and whose three collaborator
calls succeed, with seal statuses `ss`, `ss2` and leader statuses `ls`, `ls2`.
If the seal statuses are equal, `HAEnabled` is equal, and the node is sealed
or HA is disabled, then both runs send `Ui.Output` the same text, send
`Ui.Error` nothing, and return the same code, whatever `IsSelf` and
`LeaderAddress` are in each. And whenever merely `Sealed` agrees, the two exit
codes agree: the code is 1 for sealed and 0 for unsealed, whatever the share
counts, the progress and the leader fields are. -/
theorem Run_ignores_hidden_leader_data
    (c c2 : StatusCommand) (args args2 : List String) (client client2 : Client)
    (ss ss2 : SealStatusResponse) (ls ls2 : LeaderResponse)
    (hp : c.Meta.Parse args = .ok) (hc : c.Meta.Client = .ok client)
    (hs : client.SealStatus = .ok ss) (hl : client.Leader = .ok ls)
    (hp2 : c2.Meta.Parse args2 = .ok) (hc2 : c2.Meta.Client = .ok client2)
    (hs2 : client2.SealStatus = .ok ss2) (hl2 : client2.Leader = .ok ls2) :
    (ss = ss2 → ls.HAEnabled = ls2.HAEnabled →
      (ss.Sealed = true ∨ ls.HAEnabled = false) →
        uiOutputs (c.Run args).trace = uiOutputs (c2.Run args2).trace ∧
        uiErrors (c.Run args).trace = uiErrors (c2.Run args2).trace ∧
        (c.Run args).code = (c2.Run args2).code) ∧
    (ss.Sealed = ss2.Sealed → (c.Run args).code = (c2.Run args2).code) ∧
    (c.Run args).code = (if ss.Sealed then 1 else 0) := by
  rw [Run_of_success c args client ss ls hp hc hs hl,
    Run_of_success c2 args2 client2 ss2 ls2 hp2 hc2 hs2 hl2]
  refine ⟨?_, ?_, rfl⟩
  · intro hss hha hhidden
    subst hss
    have hf : leaderFields ss ls = leaderFields ss ls2 := by
      rcases hhidden with h | h
      · simp [leaderFields, h]
      · have h2 : ls2.HAEnabled = false := by rw [← hha]; exact h
        simp [leaderFields, h, h2]
    simp [uiOutputs, uiErrors, statusMessage, hf, hha]
  · intro hsealed
    simp [hsealed]

/-- C10 at a sealed node answered by two different leader records, and at an
unsealed leader against an unsealed standby with other share numbers. -/
theorem Run_ignores_hidden_leader_data_witness :
    (uiOutputs (sealedNode.Run []).trace = uiOutputs (sealedNodeOtherLeader.Run []).trace ∧
      uiErrors (sealedNode.Run []).trace = uiErrors (sealedNodeOtherLeader.Run []).trace ∧
      (sealedNode.Run []).code = (sealedNodeOtherLeader.Run []).code) ∧
    (leaderNode.Run []).code = (standbyNode.Run []).code :=
  ⟨(Run_ignores_hidden_leader_data sealedNode sealedNodeOtherLeader [] []
      { SealStatus := .ok ⟨true, 5, 3, 1⟩, Leader := .ok ⟨true, true, "https://10.0.0.7:8200"⟩ }
      { SealStatus := .ok ⟨true, 5, 3, 1⟩,
        Leader := .ok ⟨true, false, "https://203.0.113.9:8200"⟩ }
      ⟨true, 5, 3, 1⟩ ⟨true, 5, 3, 1⟩ ⟨true, true, "https://10.0.0.7:8200"⟩
      ⟨true, false, "https://203.0.113.9:8200"⟩
      rfl rfl rfl rfl rfl rfl rfl rfl).1 rfl rfl (Or.inl rfl),
   (Run_ignores_hidden_leader_data leaderNode standbyNode [] []
      { SealStatus := .ok ⟨false, 5, 3, 0⟩, Leader := .ok ⟨true, true, "https://10.0.0.7:8200"⟩ }
      { SealStatus := .ok ⟨false, 5, 3, 4⟩,
        Leader := .ok ⟨true, false, "https://10.0.0.8:8200"⟩ }
      ⟨false, 5, 3, 0⟩ ⟨false, 5, 3, 4⟩ ⟨true, true, "https://10.0.0.7:8200"⟩
      ⟨true, false, "https://10.0.0.8:8200"⟩
      rfl rfl rfl rfl rfl rfl rfl rfl).2.1 rfl⟩

/-- The exit code of every run: 1 when the arguments do not parse, 2 when a
collaborator call fails, otherwise 1 for sealed and 0 for unsealed. -/
theorem Run_code_cases (c : StatusCommand) (args : List String) :
    (c.Run args).code =
      match c.Meta.Parse args with
      | .failed _ => 1
      | .ok =>
        match c.Meta.Client with
        | .error _ => 2
        | .ok client =>
          match client.SealStatus with
          | .error _ => 2
          | .ok ss =>
            match client.Leader with
            | .error _ => 2
            | .ok _ => if ss.Sealed then 1 else 0 := by
  cases hp : c.Meta.Parse args with
  | failed ui => simp [Run_of_parse_failure c args ui hp]
  | ok =>
    cases hc : c.Meta.Client with
    | error e => simp [Run_of_client_error c args e hp hc]
    | ok client =>
      cases hs : client.SealStatus with
      | error e => simp [Run_of_seal_error c args client e hp hc hs, hs]
      | ok ss =>
        cases hl : client.Leader with
        | error e => simp [Run_of_leader_error c args client ss e hp hc hs hl, hs, hl]
        | ok ls => simp [Run_of_success c args client ss ls hp hc hs hl, hs, hl]

set_option maxRecDepth 100000 in
/-- C6: the help text of the command documents the exit codes as
"(0 unsealed, 1 sealed, 2+ error)", yet a run whose arguments the flag set
rejects ends in an error and returns 1, the code documented for a sealed
server, without any client having been created and without any status
output. -/
theorem Run_rejected_arguments_exit_code :
    "(0 unsealed, 1 sealed, 2+ error)".toList <:+: (strictFlags.Help).toList ∧
    strictFlags.Meta.Parse ["-no-such-flag"] = .failed ["flag provided but not defined"] ∧
    (strictFlags.Run ["-no-such-flag"]).code = 1 ∧
    ¬ 2 ≤ (strictFlags.Run ["-no-such-flag"]).code ∧
    Event.newClient ∉ (strictFlags.Run ["-no-such-flag"]).trace ∧
    uiOutputs (strictFlags.Run ["-no-such-flag"]).trace = [] := by
  refine ⟨by decide, rfl, rfl, by decide, by decide, rfl⟩

end Vault
